import Mathlib

/-!
# Verification of the Chroma vector-database adapter

A shallow embedding of `packages/core/src/vectordb/chroma-vectordb.ts`:
the metadata flatten/split used by `insert` and `search`, the filter
conversion used by `query` and `hybridSearch`, the dense `search` path,
and the `hybridSearch` fusion loop.

Modelling conventions:
* Scores and distances are exact rationals (`ℚ`); no claim under scrutiny
  depends on floating-point rounding.
* The remote Chroma collection is a `Backend`: a pair of functions giving
  the rows the backend would return (or a thrown error) for a dense
  (`queryEmbeddings`) or text (`queryTexts`) query.  The adapter code is
  embedded on top, parametric in the backend.
* JavaScript objects holding metadata are association lists built in
  insertion order; property lookup takes the first binding.
* `Array.prototype.sort` with comparator `(a, b) => b.score - a.score` is
  a stable descending sort (ECMAScript mandates stability); it is embedded
  as `List.insertionSort` with the reflexive descending relation, which is
  stable and sorts by the same criterion.
-/

/-- A value stored in a Chroma metadata mapping (the fields the adapter
reads are strings and numbers). -/
inductive MVal where
  | str (s : String)
  | num (n : Int)
deriving DecidableEq, Repr

/-- A flat metadata mapping, as a JavaScript object in insertion order. -/
abbrev Meta := List (String × MVal)

/-- JavaScript property lookup on a metadata object. -/
def metaLookup (m : Meta) (k : String) : Option MVal :=
  match m with
  | [] => none
  | kv :: rest => if kv.1 = k then some kv.2 else metaLookup rest k

/-- The four structural keys split out of the flat metadata on every read
(chroma-vectordb.ts lines 248-250 and 325-327). -/
def reservedKeys : List String := ["relativePath", "startLine", "endLine", "fileExtension"]

/-- Read `metadata.k || ''` for a string-valued field.  (A missing key or a
falsy value yields the empty string, as in the source.) -/
def metaGetStr (m : Meta) (k : String) : String :=
  match metaLookup m k with
  | some (MVal.str s) => s
  | _ => ""

/-- Read `metadata.k || 0` for a numeric field. -/
def metaGetNum (m : Meta) (k : String) : Int :=
  match metaLookup m k with
  | some (MVal.num n) => n
  | _ => 0

/-- The residual metadata kept after removing the reserved structural
keys: `Object.fromEntries(Object.entries(metadata).filter(...))`. -/
def residualMetadata (m : Meta) : Meta :=
  m.filter (fun kv => !(reservedKeys.contains kv.1))

/-- The `VectorDocument` record from `types.ts` as used by this adapter. -/
structure VectorDocument where
  id : String
  vector : List ℚ
  content : String
  relativePath : String
  startLine : Int
  endLine : Int
  fileExtension : String
  metadata : Meta
deriving DecidableEq, Repr

/-- The flat metadata object built by `insert` (lines 178-184):
`{relativePath, startLine, endLine, fileExtension, ...doc.metadata}`.
JavaScript spread semantics: a reserved key also present in
`doc.metadata` keeps its (early) position but takes the metadata value;
the remaining metadata entries follow in their own order. -/
def insertMetadata (doc : VectorDocument) : Meta :=
  let base : Meta := [("relativePath", MVal.str doc.relativePath),
                      ("startLine", MVal.num doc.startLine),
                      ("endLine", MVal.num doc.endLine),
                      ("fileExtension", MVal.str doc.fileExtension)]
  base.map (fun kv => (kv.1, (metaLookup doc.metadata kv.1).getD kv.2)) ++
    doc.metadata.filter (fun kv => !(reservedKeys.contains kv.1))

/-- The document reconstruction performed on every read path
(lines 238-252 and 315-329): structural fields from the flat metadata,
residual metadata from the remaining keys. -/
def splitDocument (id : String) (vector : List ℚ) (content : String) (m : Meta) :
    VectorDocument :=
  { id := id
    vector := vector
    content := content
    relativePath := metaGetStr m "relativePath"
    startLine := metaGetNum m "startLine"
    endLine := metaGetNum m "endLine"
    fileExtension := metaGetStr m "fileExtension"
    metadata := residualMetadata m }

/-- A Chroma `where` clause as produced anywhere in this adapter:
`{field: {"$in": [values...]}}`. -/
inductive WhereClause where
  | inList (field : String) (values : List String)
deriving DecidableEq, Repr

/-- The hardcoded fallback predicate of the hybrid text path (line 302). -/
def chromaDefaultWhere : WhereClause :=
  WhereClause.inList "fileExtension" [".ts", ".js", ".py"]

/-- Whether `needle` occurs as a contiguous substring of the character list:
`String.prototype.includes`. -/
def containsSub (needle : List Char) : List Char → Bool
  | [] => needle.isEmpty
  | c :: t => needle.isPrefixOf (c :: t) || containsSub needle t

/-- The first match of the regular expression `\[([^\]]+)\]`: the content
between the first bracket pair whose interior is nonempty. -/
def bracketInner : List Char → Option (List Char)
  | [] => none
  | c :: rest =>
    if c = '[' then
      match rest.dropWhile (fun x => !(x == ']')) with
      | ']' :: _ =>
        let inner := rest.takeWhile (fun x => !(x == ']'))
        if inner.isEmpty then bracketInner rest else some inner
      | _ => bracketInner rest
    else bracketInner rest

/-- Embed `.replace(/['"]/g, '')`: delete every single or double quote. -/
def stripQuotes (s : String) : String :=
  String.mk (s.data.filter (fun c => !(c == '\'' || c == '"')))

/-- Embed `String.prototype.trim`: drop whitespace from both ends
(structural, so that it evaluates inside the kernel). -/
def jsTrim (s : String) : String :=
  String.mk (((s.data.dropWhile Char.isWhitespace).reverse.dropWhile
    Char.isWhitespace).reverse)

/-- Embed `String.prototype.split(',')` on the character list. -/
def splitComma : List Char → List (List Char)
  | [] => [[]]
  | c :: rest =>
    if c = ',' then [] :: splitComma rest
    else
      match splitComma rest with
      | [] => [[c]]
      | p :: ps => (c :: p) :: ps

/-- The filter-expression conversion of `query` (lines 390-401): a
predicate is produced only when the string contains the literal text
`fileExtension in` and a nonempty bracketed list; otherwise no `where`
clause is sent (`queryParams.where = undefined`).  Never throws. -/
def queryFilterWhere (filter : String) : Option WhereClause :=
  if jsTrim filter ≠ "" ∧ containsSub "fileExtension in".data filter.data = true then
    match bracketInner filter.data with
    | some inner =>
        some (WhereClause.inList "fileExtension"
          ((splitComma inner).map (fun ext => stripQuotes (jsTrim (String.mk ext)))))
    | none => none
  else none

/-- Evaluate `options?.field || default` for a numeric option (JavaScript treats
`0` as falsy, so a present `0` also yields the default). -/
def jsOrNat (o : Option Nat) (d : Nat) : Nat :=
  match o with
  | some n => if n = 0 then d else n
  | none => d

/-- One row of a Chroma query response (`ids`, `metadatas`, `documents`,
`distances` zipped). -/
structure QueryRow where
  id : String
  metadata : Meta
  document : String
  distance : ℚ
deriving DecidableEq, Repr

/-- The payload of a hybrid search request: a dense vector or a text
query (`data: number[] | string`). -/
inductive ReqData where
  | vec (v : List ℚ)
  | txt (s : String)
deriving DecidableEq, Repr

/-- Embed `Array.isArray(request.data)`. -/
def ReqData.isArray : ReqData → Bool
  | ReqData.vec _ => true
  | ReqData.txt _ => false

/-- Embed `typeof request.data === 'string'`. -/
def ReqData.isString : ReqData → Bool
  | ReqData.vec _ => false
  | ReqData.txt _ => true

/-- Embed `request.data as number[]` under the dense guard. -/
def ReqData.asVec : ReqData → List ℚ
  | ReqData.vec v => v
  | ReqData.txt _ => []

/-- The remote collection: what `collection.query` returns for a dense
(`queryEmbeddings`) or text (`queryTexts`) call, or the error it throws. -/
structure Backend where
  denseQuery : List ℚ → Nat → Option WhereClause → Except String (List QueryRow)
  textQuery : ReqData → Nat → Option WhereClause → Except String (List QueryRow)

/-- The `SearchOptions` record from `types.ts` (fields read or written by
this adapter). -/
structure SearchOptions where
  topK : Option Nat := none
  filter : Option WhereClause := none
  filterExpr : Option String := none
deriving DecidableEq, Repr

/-- Per-modality scored result. -/
structure VectorSearchResult where
  document : VectorDocument
  score : ℚ
deriving DecidableEq, Repr

/-- Embed `score = Math.max(0, 1 - distance)` (lines 236 and 313). -/
def distanceToScore (distance : ℚ) : ℚ := max 0 (1 - distance)

/-- Row-to-result conversion shared by both read paths (dense: lines
238-254 with the caller's query vector; text: lines 315-331 with `[]`). -/
def rowToResult (vector : List ℚ) (row : QueryRow) : VectorSearchResult :=
  { document := splitDocument row.id vector row.document row.metadata
    score := distanceToScore row.distance }

/-- Embed `ChromaVectorDatabase.search` (lines 206-263): dense query with
`nResults = options?.topK || 10` and `where = options?.filter`; a
backend error is rethrown.  Note that `options?.filterExpr` is never
read here. -/
def ChromaVectorDatabase.search (be : Backend) (queryVector : List ℚ)
    (options : Option SearchOptions) : Except String (List VectorSearchResult) :=
  let topK := jsOrNat (options.bind (fun o => o.topK)) 10
  match be.denseQuery queryVector topK (options.bind (fun o => o.filter)) with
  | Except.error e => Except.error e
  | Except.ok rows => Except.ok (rows.map (rowToResult queryVector))

/-- The `HybridSearchRequest` record from `types.ts`. -/
structure HybridSearchRequest where
  data : ReqData
  anns_field : String
  limit : Nat
deriving DecidableEq, Repr

/-- The `HybridSearchOptions` record from `types.ts` (fields read by this
adapter). -/
structure HybridSearchOptions where
  limit : Option Nat := none
  filterExpr : Option String := none
deriving DecidableEq, Repr

/-- Fused result. -/
structure HybridSearchResult where
  document : VectorDocument
  score : ℚ
deriving DecidableEq, Repr

/-- Truthiness of `options?.filterExpr` (line 299). -/
def filterExprTruthy (opts : Option HybridSearchOptions) : Bool :=
  match opts with
  | some o =>
    match o.filterExpr with
    | some s => !(s == "")
    | none => false
  | none => false

/-- The per-request modality dispatch of `hybridSearch` (lines 280-334):
dense requests go through `search` (passing the filter expression under
the `filterExpr` key), text requests query the collection directly with
the hardcoded `where` clause when a filter expression is present, and a
request matching neither shape contributes no results. -/
def hybridRequestResults (be : Backend) (opts : Option HybridSearchOptions)
    (request : HybridSearchRequest) : Except String (List VectorSearchResult) :=
  if request.anns_field = "vector" ∧ request.data.isArray = true then
    ChromaVectorDatabase.search be request.data.asVec
      (some { topK := some request.limit, filter := none,
              filterExpr := opts.bind (fun o => o.filterExpr) })
  else if request.anns_field = "sparse_vector" ∨ request.data.isString = true then
    match be.textQuery request.data request.limit
        (if filterExprTruthy opts then some chromaDefaultWhere else none) with
    | Except.error e => Except.error e
    | Except.ok rows => Except.ok (rows.map (rowToResult []))
  else Except.ok []

/-- The merge step (lines 337-348): first encounter records the result
as-is; a repeat id replaces the stored score by the mean of stored and
new (the stored document is kept). -/
def mergeResult (acc : List HybridSearchResult) (r : VectorSearchResult) :
    List HybridSearchResult :=
  if acc.any (fun h => h.document.id == r.document.id) then
    acc.map (fun h =>
      if h.document.id = r.document.id
      then { h with score := (h.score + r.score) / 2 } else h)
  else acc ++ [{ document := r.document, score := r.score }]

/-- The sequential request loop of `hybridSearch` (lines 280-349) acting
on the accumulator map (embedded as a list in insertion order, which is
exactly the iteration order of a JavaScript `Map`). -/
def processRequests (be : Backend) (opts : Option HybridSearchOptions) :
    List HybridSearchRequest → List HybridSearchResult →
    Except String (List HybridSearchResult)
  | [], acc => Except.ok acc
  | r :: rs, acc =>
    match hybridRequestResults be opts r with
    | Except.error e => Except.error e
    | Except.ok srs => processRequests be opts rs (srs.foldl mergeResult acc)

/-- The sort relation of `.sort((a, b) => b.score - a.score)`:
descending by score. -/
def scoreDesc (a b : HybridSearchResult) : Prop := b.score ≤ a.score

instance : DecidableRel scoreDesc :=
  fun a b => inferInstanceAs (Decidable (b.score ≤ a.score))

/-- Embed `ChromaVectorDatabase.hybridSearch` (lines 265-363): process every
request sequentially into the accumulator, stably sort by descending
score, truncate to `options?.limit || 10`.  Any modality error aborts
the whole call (the loop is inside one `try`, and the `catch` rethrows). -/
def ChromaVectorDatabase.hybridSearch (be : Backend)
    (searchRequests : List HybridSearchRequest)
    (options : Option HybridSearchOptions) :
    Except String (List HybridSearchResult) :=
  match processRequests be options searchRequests [] with
  | Except.error e => Except.error e
  | Except.ok acc =>
      Except.ok ((acc.insertionSort scoreDesc).take
        (jsOrNat (options.bind (fun o => o.limit)) 10))

/-! ## Concrete test fixtures -/

/-- A backend row with empty metadata, used in concrete scenarios. -/
def docRow (idv : String) (d : ℚ) : QueryRow :=
  { id := idv, metadata := [], document := "", distance := d }

/-- The backend of the worked fusion scenario of the specification:
dense results x (distance 1/10, score 9/10) and y (3/10, 7/10); text
results x (1/2, 1/2) and z (1/5, 4/5). -/
def scenarioBackend : Backend :=
  { denseQuery := fun _ _ _ => Except.ok [docRow "x" (1/10), docRow "y" (3/10)],
    textQuery := fun _ _ _ => Except.ok [docRow "x" (1/2), docRow "z" (1/5)] }

/-- One dense and one text request. -/
def scenarioRequests : List HybridSearchRequest :=
  [ { data := ReqData.vec [1], anns_field := "vector", limit := 10 },
    { data := ReqData.txt "q", anns_field := "sparse_vector", limit := 10 } ]

/-- Fusion options with limit 3 and no filter expression. -/
def scenarioOptions : Option HybridSearchOptions :=
  some { limit := some 3, filterExpr := none }

/-- The expected fused output of the scenario. -/
def scenarioExpected : List HybridSearchResult :=
  [ { document := splitDocument "z" [] "" [], score := 4/5 },
    { document := splitDocument "x" [1] "" [], score := 7/10 },
    { document := splitDocument "y" [1] "" [], score := 7/10 } ]

/-! ## Helper lemmas about the merge accumulator -/

/-- Merging never invents a document: each entry's document was already
in the accumulator or is the incoming result's document. -/
theorem mergeResult_docs {acc : List HybridSearchResult} {r : VectorSearchResult}
    {h : HybridSearchResult} (hm : h ∈ mergeResult acc r) :
    (∃ h0 ∈ acc, h.document = h0.document) ∨ h.document = r.document := by
  unfold mergeResult at hm
  by_cases hc : acc.any (fun x => x.document.id == r.document.id) = true
  · rw [if_pos hc] at hm
    obtain ⟨h0, h0m, hh⟩ := List.mem_map.mp hm
    left
    refine ⟨h0, h0m, ?_⟩
    subst hh
    split <;> rfl
  · rw [if_neg hc] at hm
    rcases List.mem_append.mp hm with h1 | h1
    · exact Or.inl ⟨h, h1, rfl⟩
    · right
      simp only [List.mem_singleton] at h1
      subst h1
      rfl

/-- The id column of the accumulator after one merge. -/
theorem mergeResult_ids (acc : List HybridSearchResult) (r : VectorSearchResult) :
    (mergeResult acc r).map (fun x => x.document.id)
      = if acc.any (fun x => x.document.id == r.document.id)
        then acc.map (fun x => x.document.id)
        else acc.map (fun x => x.document.id) ++ [r.document.id] := by
  unfold mergeResult
  split
  · rw [List.map_map]
    congr 1
    funext x
    simp only [Function.comp]
    split <;> rfl
  · simp

/-- One merge step preserves distinctness of ids. -/
theorem mergeResult_nodup {acc : List HybridSearchResult} {r : VectorSearchResult}
    (h : (acc.map (fun x => x.document.id)).Nodup) :
    ((mergeResult acc r).map (fun x => x.document.id)).Nodup := by
  rw [mergeResult_ids]
  split
  · exact h
  next hc =>
    have hnot : r.document.id ∉ acc.map (fun x => x.document.id) := by
      intro hmem
      obtain ⟨x, hx, hxe⟩ := List.mem_map.mp hmem
      apply hc
      exact List.any_eq_true.mpr ⟨x, hx, by simp [hxe]⟩
    simp [List.nodup_append, h, hnot]

/-- Folding a result list into the accumulator preserves id distinctness. -/
theorem foldl_mergeResult_nodup (srs : List VectorSearchResult) :
    ∀ acc : List HybridSearchResult, (acc.map (fun x => x.document.id)).Nodup →
    ((srs.foldl mergeResult acc).map (fun x => x.document.id)).Nodup := by
  induction srs with
  | nil => intro acc h; exact h
  | cons s ss ih => intro acc h; exact ih _ (mergeResult_nodup h)

/-- Processing any request list preserves id distinctness. -/
theorem processRequests_nodup (be : Backend) (opts : Option HybridSearchOptions) :
    ∀ (rs : List HybridSearchRequest) (acc out : List HybridSearchResult),
    processRequests be opts rs acc = Except.ok out →
    (acc.map (fun x => x.document.id)).Nodup →
    (out.map (fun x => x.document.id)).Nodup := by
  intro rs
  induction rs with
  | nil =>
    intro acc out hp h
    cases hp
    exact h
  | cons r rs ih =>
    intro acc out hp h
    unfold processRequests at hp
    cases hq : hybridRequestResults be opts r with
    | error e => rw [hq] at hp; cases hp
    | ok srs =>
      rw [hq] at hp
      exact ih _ _ hp (foldl_mergeResult_nodup srs acc h)

/-- Document provenance through a fold of merges. -/
theorem foldl_mergeResult_docs (srs : List VectorSearchResult) :
    ∀ (acc : List HybridSearchResult) (h : HybridSearchResult),
    h ∈ srs.foldl mergeResult acc →
    (∃ h0 ∈ acc, h.document = h0.document) ∨ ∃ s ∈ srs, h.document = s.document := by
  induction srs with
  | nil =>
    intro acc h hm
    exact Or.inl ⟨h, hm, rfl⟩
  | cons s ss ih =>
    intro acc h hm
    rcases ih (mergeResult acc s) h hm with ⟨h0, h0m, he⟩ | ⟨s0, hs0, he⟩
    · rcases mergeResult_docs h0m with ⟨h1, h1m, he1⟩ | he1
      · exact Or.inl ⟨h1, h1m, he.trans he1⟩
      · exact Or.inr ⟨s, List.mem_cons_self s ss, he.trans he1⟩
    · exact Or.inr ⟨s0, List.mem_cons_of_mem s hs0, he⟩

/-- Characterization of a successful hybrid search: some accumulator is
produced by the request loop, then stably sorted and truncated. -/
theorem hybridSearch_ok_iff (be : Backend) (reqs : List HybridSearchRequest)
    (opts : Option HybridSearchOptions) (l : List HybridSearchResult) :
    ChromaVectorDatabase.hybridSearch be reqs opts = Except.ok l ↔
    ∃ acc, processRequests be opts reqs [] = Except.ok acc ∧
      l = (acc.insertionSort scoreDesc).take (jsOrNat (opts.bind fun o => o.limit) 10) := by
  unfold ChromaVectorDatabase.hybridSearch
  cases h : processRequests be opts reqs [] with
  | error e => simp [h]
  | ok acc =>
    simp only [h]
    constructor
    · intro he
      cases he
      exact ⟨acc, rfl, rfl⟩
    · rintro ⟨acc2, hacc2, rfl⟩
      cases hacc2
      rfl

/-- Every output entry of a successful hybrid search is an accumulator
entry. -/
theorem hybridSearch_mem {be : Backend} {reqs : List HybridSearchRequest}
    {opts : Option HybridSearchOptions} {l : List HybridSearchResult}
    {h : HybridSearchResult}
    (hok : ChromaVectorDatabase.hybridSearch be reqs opts = Except.ok l)
    (hmem : h ∈ l) :
    ∃ acc, processRequests be opts reqs [] = Except.ok acc ∧ h ∈ acc := by
  obtain ⟨acc, hacc, rfl⟩ := (hybridSearch_ok_iff be reqs opts l).mp hok
  exact ⟨acc, hacc, (List.mem_insertionSort scoreDesc).mp (List.take_subset _ _ hmem)⟩

/-- Characterization of a successful dense search: the backend rows,
mapped with the caller's query vector. -/
theorem search_ok_iff (be : Backend) (qv : List ℚ) (opts : Option SearchOptions)
    (l : List VectorSearchResult) :
    ChromaVectorDatabase.search be qv opts = Except.ok l ↔
    ∃ rows, be.denseQuery qv (jsOrNat (opts.bind fun o => o.topK) 10)
        (opts.bind fun o => o.filter) = Except.ok rows ∧
      l = rows.map (rowToResult qv) := by
  unfold ChromaVectorDatabase.search
  cases h : be.denseQuery qv (jsOrNat (opts.bind fun o => o.topK) 10)
      (opts.bind fun o => o.filter) with
  | error e => simp [h]
  | ok rows =>
    simp only [h, Except.ok.injEq]
    constructor
    · intro he
      exact ⟨rows, rfl, he.symm⟩
    · rintro ⟨rows2, hr2, rfl⟩
      cases hr2
      rfl

/-- Case analysis on one modality request of `hybridSearch`: a dense
request queries the backend with NO predicate (the filter expression is
forwarded under the `filterExpr` key, which the dense search path never
reads); a text request queries with the hardcoded default predicate
exactly when a nonempty filter expression is present; anything else
contributes no results. -/
theorem hybridRequestResults_char (be : Backend) (opts : Option HybridSearchOptions)
    (req : HybridSearchRequest) (srs : List VectorSearchResult)
    (h : hybridRequestResults be opts req = Except.ok srs) :
    (req.anns_field = "vector" ∧ req.data.isArray = true ∧
      ∃ rows, be.denseQuery req.data.asVec (jsOrNat (some req.limit) 10) none
          = Except.ok rows ∧ srs = rows.map (rowToResult req.data.asVec)) ∨
    (¬(req.anns_field = "vector" ∧ req.data.isArray = true) ∧
      (req.anns_field = "sparse_vector" ∨ req.data.isString = true) ∧
      ∃ rows, be.textQuery req.data req.limit
          (if filterExprTruthy opts then some chromaDefaultWhere else none)
          = Except.ok rows ∧ srs = rows.map (rowToResult [])) ∨
    srs = [] := by
  unfold hybridRequestResults at h
  split at h
  · next hg =>
    left
    obtain ⟨rows, hrows, rfl⟩ := (search_ok_iff be req.data.asVec _ srs).mp h
    refine ⟨hg.1, hg.2, rows, ?_, rfl⟩
    simpa using hrows
  · split at h
    · next hg1 hg2 =>
      right; left
      refine ⟨hg1, hg2, ?_⟩
      cases hq : be.textQuery req.data req.limit
          (if filterExprTruthy opts then some chromaDefaultWhere else none) with
      | error e => rw [hq] at h; cases h
      | ok rows =>
        rw [hq] at h
        cases h
        exact ⟨rows, rfl, rfl⟩
    · right; right
      cases h
      rfl

/-! ## Claim C6 -/

/-- C6: for every backend distance `d ≥ 0` the derived score
`max(0, 1 - d)` lies in `[0, 1]`; distance `0` yields score `1` and any
distance `≥ 1` (written `1 + d`) yields score `0`; and every result of
the dense search path and of a hybrid modality request carries a score
derived by exactly this conversion. -/
theorem score_clamp_both_paths (be : Backend) (qv : List ℚ)
    (opts : Option SearchOptions) (hopts : Option HybridSearchOptions)
    (req : HybridSearchRequest) (l srs : List VectorSearchResult)
    (r1 r2 : VectorSearchResult) (d : ℚ)
    (hd : 0 ≤ d)
    (hs : ChromaVectorDatabase.search be qv opts = Except.ok l)
    (hr : hybridRequestResults be hopts req = Except.ok srs)
    (h1 : r1 ∈ l) (h2 : r2 ∈ srs) :
    (0 ≤ distanceToScore d ∧ distanceToScore d ≤ 1) ∧
    distanceToScore 0 = 1 ∧
    distanceToScore (1 + d) = 0 ∧
    (∃ row : QueryRow, r1.score = distanceToScore row.distance) ∧
    (∃ row : QueryRow, r2.score = distanceToScore row.distance) := by
  refine ⟨⟨le_max_left _ _, max_le (by norm_num) (by linarith)⟩, ?_, ?_, ?_, ?_⟩
  · norm_num [distanceToScore]
  · unfold distanceToScore
    rw [max_eq_left (by linarith : 1 - (1 + d) ≤ 0)]
  · obtain ⟨rows, _, rfl⟩ := (search_ok_iff be qv opts l).mp hs
    obtain ⟨row, _, rfl⟩ := List.mem_map.mp h1
    exact ⟨row, rfl⟩
  · rcases hybridRequestResults_char be hopts req srs hr with
      ⟨_, _, rows, _, rfl⟩ | ⟨_, _, rows, _, rfl⟩ | rfl
    · obtain ⟨row, _, rfl⟩ := List.mem_map.mp h2
      exact ⟨row, rfl⟩
    · obtain ⟨row, _, rfl⟩ := List.mem_map.mp h2
      exact ⟨row, rfl⟩
    · cases h2

/-- Witness for C6 at the concrete scenario backend: distance `1/4`,
the dense result for `x` and the text-path result for `z`. -/
theorem score_clamp_both_paths_witness :
    (0 ≤ distanceToScore (1/4) ∧ distanceToScore (1/4) ≤ 1) ∧
    distanceToScore 0 = 1 ∧
    distanceToScore (1 + 1/4) = 0 ∧
    (∃ row : QueryRow,
      (rowToResult [1] (docRow "x" (1/10))).score = distanceToScore row.distance) ∧
    (∃ row : QueryRow,
      (rowToResult [] (docRow "z" (1/5))).score = distanceToScore row.distance) := by
  have hs : ChromaVectorDatabase.search scenarioBackend [1] none
      = Except.ok [rowToResult [1] (docRow "x" (1/10)), rowToResult [1] (docRow "y" (3/10))] := by
    simp [ChromaVectorDatabase.search, scenarioBackend, jsOrNat]
  have hr : hybridRequestResults scenarioBackend none
      { data := ReqData.txt "q", anns_field := "sparse_vector", limit := 5 }
      = Except.ok [rowToResult [] (docRow "x" (1/2)), rowToResult [] (docRow "z" (1/5))] := by
    simp [hybridRequestResults, scenarioBackend, filterExprTruthy, ReqData.isArray]
  exact score_clamp_both_paths scenarioBackend [1] none none
    { data := ReqData.txt "q", anns_field := "sparse_vector", limit := 5 }
    _ _ (rowToResult [1] (docRow "x" (1/10))) (rowToResult [] (docRow "z" (1/5)))
    (1/4) (by norm_num) hs hr (by simp) (by simp)

/-! ## Claim C2 -/

/-- C2 counterexample: an expression matching the claimed grammar
`<field> in [...]` with a field other than `fileExtension` yields NO
predicate (not `{author: {in: [a, b]}}`), and an unparseable expression
also yields NO predicate, not the hardcoded allow-list default. -/
theorem filter_translation_counterexample :
    queryFilterWhere "author in [\"a\", \"b\"]" = none ∧
    queryFilterWhere "author in [\"a\", \"b\"]"
      ≠ some (WhereClause.inList "author" ["a", "b"]) ∧
    queryFilterWhere "not-a-valid-expr" = none ∧
    queryFilterWhere "not-a-valid-expr" ≠ some chromaDefaultWhere := by decide

/-- C2 amended: the conversion is total and never errors, but it only
ever yields a `fileExtension` membership predicate or no predicate at
all; an expression containing `fileExtension in` with a nonempty
bracketed list yields the corresponding predicate, and every other
expression (any other field name included) yields no predicate rather
than the hardcoded allow-list default. -/
theorem filter_translation_total (s : String) :
    (queryFilterWhere s = none ∨
      ∃ vals, queryFilterWhere s = some (WhereClause.inList "fileExtension" vals)) ∧
    queryFilterWhere "fileExtension in [\".ts\", \".py\"]"
      = some (WhereClause.inList "fileExtension" [".ts", ".py"]) ∧
    queryFilterWhere "fileExtension in []" = none := by
  refine ⟨?_, by decide, by decide⟩
  unfold queryFilterWhere
  split
  · cases hbr : bracketInner s.data with
    | none => exact Or.inl rfl
    | some inner => exact Or.inr ⟨_, rfl⟩
  · exact Or.inl rfl

/-! ## Claim C3 -/

/-- C3: a first-encounter id is appended with its score as-is, a repeat
id replaces the stored score by the arithmetic mean of stored and new
score, and the specification's worked scenario (dense x:9/10, y:7/10;
text x:1/2, z:4/5; limit 3) fuses to `[z:4/5, x:7/10, y:7/10]`. -/
theorem merge_rule_and_scenario (acc1 acc2 : List HybridSearchResult)
    (r1 r2 : VectorSearchResult)
    (hfirst : ∀ h ∈ acc1, h.document.id ≠ r1.document.id)
    (hrepeat : ∃ h ∈ acc2, h.document.id = r2.document.id) :
    mergeResult acc1 r1 = acc1 ++ [{ document := r1.document, score := r1.score }] ∧
    mergeResult acc2 r2 = acc2.map (fun h =>
      if h.document.id = r2.document.id
      then { h with score := (h.score + r2.score) / 2 } else h) ∧
    ChromaVectorDatabase.hybridSearch scenarioBackend scenarioRequests scenarioOptions
      = Except.ok scenarioExpected := by
  refine ⟨?_, ?_, ?_⟩
  · unfold mergeResult
    rw [if_neg]
    intro hany
    obtain ⟨x, hx, hbe⟩ := List.any_eq_true.mp hany
    exact hfirst x hx (by simpa using hbe)
  · unfold mergeResult
    rw [if_pos]
    obtain ⟨h, hm, he⟩ := hrepeat
    exact List.any_eq_true.mpr ⟨h, hm, by simp [he]⟩
  · norm_num [ChromaVectorDatabase.hybridSearch, processRequests, hybridRequestResults,
      ChromaVectorDatabase.search, mergeResult, rowToResult, distanceToScore,
      scenarioBackend, scenarioRequests, scenarioOptions, scenarioExpected, docRow, jsOrNat,
      List.insertionSort, List.orderedInsert, scoreDesc, filterExprTruthy,
      ReqData.isArray, ReqData.isString, ReqData.asVec, splitDocument,
      metaGetStr, metaGetNum, metaLookup, residualMetadata,
      show ("y" : String) ≠ "x" from by decide, show ("z" : String) ≠ "x" from by decide,
      show ("z" : String) ≠ "y" from by decide, show ("x" : String) ≠ "y" from by decide]

/-- Witness for C3: first encounter of `y` after `x`, repeat encounter
of `x` from the text modality, and the scenario instance. -/
theorem merge_rule_and_scenario_witness :
    (mergeResult [{ document := splitDocument "x" [1] "" [], score := 9/10 }]
        (rowToResult [1] (docRow "y" (3/10)))
      = [{ document := splitDocument "x" [1] "" [], score := 9/10 }]
        ++ [{ document := (rowToResult [1] (docRow "y" (3/10))).document,
              score := (rowToResult [1] (docRow "y" (3/10))).score }]) ∧
    (mergeResult [{ document := splitDocument "x" [1] "" [], score := 9/10 },
                  { document := splitDocument "y" [1] "" [], score := 7/10 }]
        (rowToResult [] (docRow "x" (1/2)))
      = [{ document := splitDocument "x" [1] "" [], score := 9/10 },
         { document := splitDocument "y" [1] "" [], score := 7/10 }].map (fun h =>
          if h.document.id = (rowToResult [] (docRow "x" (1/2))).document.id
          then { h with score := (h.score + (rowToResult [] (docRow "x" (1/2))).score) / 2 }
          else h)) ∧
    ChromaVectorDatabase.hybridSearch scenarioBackend scenarioRequests scenarioOptions
      = Except.ok scenarioExpected := by
  exact merge_rule_and_scenario
    [{ document := splitDocument "x" [1] "" [], score := 9/10 }]
    [{ document := splitDocument "x" [1] "" [], score := 9/10 },
     { document := splitDocument "y" [1] "" [], score := 7/10 }]
    (rowToResult [1] (docRow "y" (3/10))) (rowToResult [] (docRow "x" (1/2)))
    (by simp [splitDocument, rowToResult, docRow, metaGetStr, metaLookup])
    ⟨{ document := splitDocument "x" [1] "" [], score := 9/10 },
      by simp, by simp [splitDocument, rowToResult, docRow, metaGetStr, metaLookup]⟩

/-! ## Claim C8 -/

/-- A document whose residual metadata reuses the reserved key
`relativePath`. -/
def roundTripDoc : VectorDocument :=
  { id := "d", vector := [], content := "c", relativePath := "a", startLine := 1,
    endLine := 2, fileExtension := ".ts", metadata := [("relativePath", MVal.str "b")] }

/-- C8 counterexample: flatten-then-split is NOT lossless for every
document.  A residual metadata entry under a reserved key overrides the
structural field in the flat mapping (the spread comes last in
`insert`), so the read back document has `relativePath = "b"` instead
of `"a"` and an empty residual metadata. -/
theorem metadata_roundtrip_counterexample :
    splitDocument roundTripDoc.id roundTripDoc.vector roundTripDoc.content
        (insertMetadata roundTripDoc) ≠ roundTripDoc ∧
    (splitDocument roundTripDoc.id roundTripDoc.vector roundTripDoc.content
        (insertMetadata roundTripDoc)).relativePath = "b" ∧
    roundTripDoc.relativePath = "a" ∧
    (splitDocument roundTripDoc.id roundTripDoc.vector roundTripDoc.content
        (insertMetadata roundTripDoc)).metadata = [] := by decide

/-- Lookup misses when no binding carries the key. -/
theorem metaLookup_eq_none {m : Meta} {k : String}
    (h : ∀ kv ∈ m, kv.1 ≠ k) : metaLookup m k = none := by
  induction m with
  | nil => rfl
  | cons kv rest ih =>
    unfold metaLookup
    rw [if_neg (h kv (List.mem_cons_self kv rest))]
    exact ih fun kv2 h2 => h kv2 (List.mem_cons_of_mem kv h2)

/-- C8 amended: the flatten/split round-trip recovers the original
document exactly when the residual metadata uses none of the four
reserved structural keys. -/
theorem metadata_roundtrip (doc : VectorDocument)
    (hdisj : ∀ kv ∈ doc.metadata, kv.1 ∉ reservedKeys) :
    splitDocument doc.id doc.vector doc.content (insertMetadata doc) = doc := by
  have hnone : ∀ k ∈ reservedKeys, metaLookup doc.metadata k = none := by
    intro k hk
    apply metaLookup_eq_none
    intro kv hkv he
    exact hdisj kv hkv (he ▸ hk)
  have h1 := hnone "relativePath" (by decide)
  have h2 := hnone "startLine" (by decide)
  have h3 := hnone "endLine" (by decide)
  have h4 := hnone "fileExtension" (by decide)
  have hkeep : ∀ kv ∈ doc.metadata, (!(reservedKeys.contains kv.1)) = true := by
    intro kv hkv
    simp only [Bool.not_eq_true']
    rw [← Bool.not_eq_true]
    intro hc
    exact hdisj kv hkv (List.elem_iff.mp hc)
  obtain ⟨i, v, cn, rp, sl, el, fe, m⟩ := doc
  have hkeep2 : ∀ kv ∈ m, (!(decide (kv.1 ∈ reservedKeys))) = true := by
    intro kv hkv
    simp [hdisj kv hkv]
  have hfm : List.filter (fun kv => !(decide (kv.1 ∈ reservedKeys))) m = m :=
    List.filter_eq_self.mpr hkeep2
  simp only [insertMetadata, splitDocument, List.map_cons, List.map_nil]
  rw [List.filter_eq_self.mpr hkeep]
  simp only [h1, h2, h3, h4, Option.getD_none] at *
  simp [metaGetStr, metaGetNum, metaLookup, residualMetadata, hfm,
    show ("relativePath" : String) ≠ "startLine" from by decide,
    show ("relativePath" : String) ≠ "endLine" from by decide,
    show ("relativePath" : String) ≠ "fileExtension" from by decide,
    show ("startLine" : String) ≠ "endLine" from by decide,
    show ("startLine" : String) ≠ "fileExtension" from by decide,
    show ("endLine" : String) ≠ "fileExtension" from by decide,
    show decide (("relativePath" : String) ∈ reservedKeys) = true from by decide,
    show decide (("startLine" : String) ∈ reservedKeys) = true from by decide,
    show decide (("endLine" : String) ∈ reservedKeys) = true from by decide,
    show decide (("fileExtension" : String) ∈ reservedKeys) = true from by decide]

/-- A document whose residual metadata avoids the reserved keys. -/
def cleanDoc : VectorDocument :=
  { id := "d", vector := [], content := "c", relativePath := "a", startLine := 1,
    endLine := 2, fileExtension := ".ts", metadata := [("author", MVal.str "me")] }

/-- Witness for C8 amended at a concrete document. -/
theorem metadata_roundtrip_witness :
    splitDocument cleanDoc.id cleanDoc.vector cleanDoc.content (insertMetadata cleanDoc)
      = cleanDoc :=
  metadata_roundtrip cleanDoc (by decide)

/-! ## Claim C1 -/

/-- C1 amended: in a fusion call the filter expression is never
translated into a shared predicate.  A dense-shaped request reaches the
backend with NO predicate at all (the expression travels under the
`filterExpr` key, which the dense search path never reads), while a
text-shaped request reaches the backend with the fixed hardcoded
predicate whenever a nonempty filter expression is present, regardless
of the expression's content. -/
theorem hybrid_filter_not_uniform (be : Backend) (opts : Option HybridSearchOptions)
    (reqd reql : HybridSearchRequest)
    (hd : reqd.anns_field = "vector" ∧ reqd.data.isArray = true)
    (hl1 : ¬(reql.anns_field = "vector" ∧ reql.data.isArray = true))
    (hl2 : reql.anns_field = "sparse_vector" ∨ reql.data.isString = true) :
    hybridRequestResults be opts reqd
      = Except.map (List.map (rowToResult reqd.data.asVec))
          (be.denseQuery reqd.data.asVec (jsOrNat (some reqd.limit) 10) none) ∧
    hybridRequestResults be opts reql
      = Except.map (List.map (rowToResult []))
          (be.textQuery reql.data reql.limit
            (if filterExprTruthy opts then some chromaDefaultWhere else none)) := by
  constructor
  · unfold hybridRequestResults
    rw [if_pos hd]
    unfold ChromaVectorDatabase.search
    cases h : be.denseQuery reqd.data.asVec (jsOrNat (some reqd.limit) 10) none with
    | error e => simp [h, Except.map]
    | ok rows => simp [h, Except.map]
  · unfold hybridRequestResults
    rw [if_neg hl1, if_pos hl2]
    cases h : be.textQuery reql.data reql.limit
        (if filterExprTruthy opts then some chromaDefaultWhere else none) with
    | error e => simp [h, Except.map]
    | ok rows => simp [h, Except.map]

/-- Witness for C1 amended: dense request `[1]` and text request `"q"`
with a filter expression present. -/
theorem hybrid_filter_not_uniform_witness :
    (hybridRequestResults scenarioBackend
        (some { limit := some 10, filterExpr := some "language in [\"rust\"]" })
        { data := ReqData.vec [1], anns_field := "vector", limit := 10 }
      = Except.map (List.map (rowToResult (ReqData.vec [1]).asVec))
          (scenarioBackend.denseQuery (ReqData.vec [1]).asVec (jsOrNat (some 10) 10) none)) ∧
    (hybridRequestResults scenarioBackend
        (some { limit := some 10, filterExpr := some "language in [\"rust\"]" })
        { data := ReqData.txt "q", anns_field := "sparse_vector", limit := 10 }
      = Except.map (List.map (rowToResult []))
          (scenarioBackend.textQuery (ReqData.txt "q") 10
            (if filterExprTruthy
                (some { limit := some 10, filterExpr := some "language in [\"rust\"]" })
              then some chromaDefaultWhere else none))) :=
  hybrid_filter_not_uniform scenarioBackend
    (some { limit := some 10, filterExpr := some "language in [\"rust\"]" })
    { data := ReqData.vec [1], anns_field := "vector", limit := 10 }
    { data := ReqData.txt "q", anns_field := "sparse_vector", limit := 10 }
    (by decide) (by decide) (by decide)

/-- A backend that records in the returned ids which predicate it was
given, so that the run itself shows what each modality received. -/
def probeBackend : Backend :=
  { denseQuery := fun _ _ w =>
      Except.ok [docRow (match w with
        | none => "dense-no-filter"
        | some _ => "dense-filtered") 0],
    textQuery := fun _ _ w =>
      Except.ok [docRow (match w with
        | some c => if c = chromaDefaultWhere then "lex-hardcoded-default" else "lex-other"
        | none => "lex-no-filter") 1] }

/-- C1 counterexample: with the filter expression
`language in ["rust"]` present, one fusion call queries the dense
modality with no predicate and the text modality with the hardcoded
default predicate — the two modalities are not filtered identically,
and neither predicate is a translation of the expression. -/
theorem hybrid_filter_counterexample :
    ChromaVectorDatabase.hybridSearch probeBackend scenarioRequests
      (some { limit := some 10, filterExpr := some "language in [\"rust\"]" })
    = Except.ok
      [ { document := splitDocument "dense-no-filter" [1] "" [], score := 1 },
        { document := splitDocument "lex-hardcoded-default" [] "" [], score := 0 } ] := by
  norm_num [ChromaVectorDatabase.hybridSearch, processRequests, hybridRequestResults,
    ChromaVectorDatabase.search, mergeResult, rowToResult, distanceToScore,
    probeBackend, scenarioRequests, docRow, jsOrNat,
    List.insertionSort, List.orderedInsert, scoreDesc, filterExprTruthy,
    ReqData.isArray, ReqData.isString, ReqData.asVec,
    show ("language in [\"rust\"]" == "") = false from by decide,
    show ("lex-hardcoded-default" : String) ≠ "dense-no-filter" from by decide]

/-! ## Claim C10 -/

/-- A request matching neither modality shape contributes no results
and raises no error. -/
theorem hybridRequestResults_skip {req : HybridSearchRequest}
    (h1 : ¬(req.anns_field = "vector" ∧ req.data.isArray = true))
    (h2 : ¬(req.anns_field = "sparse_vector" ∨ req.data.isString = true))
    (be : Backend) (opts : Option HybridSearchOptions) :
    hybridRequestResults be opts req = Except.ok [] := by
  unfold hybridRequestResults
  rw [if_neg h1, if_neg h2]

/-- Dropping a shape-matching-nothing request from the loop changes
nothing. -/
theorem processRequests_skip (be : Backend) (opts : Option HybridSearchOptions)
    {r : HybridSearchRequest}
    (h1 : ¬(r.anns_field = "vector" ∧ r.data.isArray = true))
    (h2 : ¬(r.anns_field = "sparse_vector" ∨ r.data.isString = true)) :
    ∀ (pre post : List HybridSearchRequest) (acc : List HybridSearchResult),
    processRequests be opts (pre ++ r :: post) acc
      = processRequests be opts (pre ++ post) acc := by
  intro pre
  induction pre with
  | nil =>
    intro post acc
    simp only [List.nil_append]
    conv_lhs => unfold processRequests
    rw [hybridRequestResults_skip h1 h2 be opts]
    rfl
  | cons q qs ih =>
    intro post acc
    simp only [List.cons_append]
    conv_lhs => unfold processRequests
    conv_rhs => unfold processRequests
    cases hq : hybridRequestResults be opts q with
    | error e => rfl
    | ok srs => exact ih post _

/-- C10: a search request matching neither the dense shape
(`anns_field = 'vector'` with an array payload) nor the lexical shape
(`anns_field = 'sparse_vector'` or a string payload) contributes zero
results, raises no error, and the fused output equals the fusion of the
remaining requests. -/
theorem unmatched_request_skipped (be : Backend) (opts : Option HybridSearchOptions)
    (pre post : List HybridSearchRequest) (r : HybridSearchRequest)
    (h1 : ¬(r.anns_field = "vector" ∧ r.data.isArray = true))
    (h2 : ¬(r.anns_field = "sparse_vector" ∨ r.data.isString = true)) :
    hybridRequestResults be opts r = Except.ok [] ∧
    ChromaVectorDatabase.hybridSearch be (pre ++ r :: post) opts
      = ChromaVectorDatabase.hybridSearch be (pre ++ post) opts := by
  refine ⟨hybridRequestResults_skip h1 h2 be opts, ?_⟩
  unfold ChromaVectorDatabase.hybridSearch
  rw [processRequests_skip be opts h1 h2 pre post []]

/-- Witness for C10: a request with unknown `anns_field` and a vector
payload is skipped between the scenario's two requests. -/
theorem unmatched_request_skipped_witness :
    hybridRequestResults scenarioBackend scenarioOptions
      { data := ReqData.vec [2], anns_field := "unknown", limit := 5 } = Except.ok [] ∧
    ChromaVectorDatabase.hybridSearch scenarioBackend
      (scenarioRequests ++ { data := ReqData.vec [2], anns_field := "unknown", limit := 5 } :: [])
      scenarioOptions
    = ChromaVectorDatabase.hybridSearch scenarioBackend (scenarioRequests ++ []) scenarioOptions :=
  unmatched_request_skipped scenarioBackend scenarioOptions scenarioRequests []
    { data := ReqData.vec [2], anns_field := "unknown", limit := 5 }
    (by decide) (by decide)

/-! ## Claim C5 -/

/-- C5: when the backend call for one modality fails, the whole fusion
call fails with that error and no partial result is returned (the
default fail-the-whole-call policy; the code has no configuration that
degrades a failed modality to zero results). -/
theorem modality_failure_fails_call (be : Backend) (opts : Option HybridSearchOptions)
    (pre post : List HybridSearchRequest) (r : HybridSearchRequest) (e : String)
    (hok : ∀ q ∈ pre, ∃ srs, hybridRequestResults be opts q = Except.ok srs)
    (herr : hybridRequestResults be opts r = Except.error e) :
    ChromaVectorDatabase.hybridSearch be (pre ++ r :: post) opts = Except.error e := by
  unfold ChromaVectorDatabase.hybridSearch
  suffices h : ∀ (pre2 : List HybridSearchRequest),
      (∀ q ∈ pre2, ∃ srs, hybridRequestResults be opts q = Except.ok srs) →
      ∀ acc, processRequests be opts (pre2 ++ r :: post) acc = Except.error e by
    rw [h pre hok []]
  intro pre2
  induction pre2 with
  | nil =>
    intro _ acc
    simp only [List.nil_append]
    unfold processRequests
    rw [herr]
  | cons q qs ih =>
    intro hok2 acc
    obtain ⟨srs, hq⟩ := hok2 q (List.mem_cons_self q qs)
    simp only [List.cons_append]
    unfold processRequests
    rw [hq]
    exact ih (fun p hp => hok2 p (List.mem_cons_of_mem q hp)) _

/-- A backend whose text search fails. -/
def failBackend : Backend :=
  { denseQuery := fun _ _ _ => Except.ok [docRow "x" 0],
    textQuery := fun _ _ _ => Except.error "connection refused" }

/-- Witness for C5: the dense modality succeeds, the text modality
fails, and the whole call returns the error with no partial result. -/
theorem modality_failure_fails_call_witness :
    ChromaVectorDatabase.hybridSearch failBackend scenarioRequests scenarioOptions
      = Except.error "connection refused" := by
  have hok : ∀ q ∈ [({ data := ReqData.vec [1], anns_field := "vector", limit := 10 } :
      HybridSearchRequest)], ∃ srs, hybridRequestResults failBackend scenarioOptions q
        = Except.ok srs := by
    intro q hq
    simp only [List.mem_singleton] at hq
    subst hq
    exact ⟨[rowToResult (ReqData.vec [1]).asVec (docRow "x" 0)],
      by simp [hybridRequestResults, ChromaVectorDatabase.search, failBackend,
        jsOrNat, ReqData.isArray]⟩
  have herr : hybridRequestResults failBackend scenarioOptions
      { data := ReqData.txt "q", anns_field := "sparse_vector", limit := 10 }
      = Except.error "connection refused" := by
    simp [hybridRequestResults, failBackend, filterExprTruthy, ReqData.isArray,
      scenarioOptions]
  exact modality_failure_fails_call failBackend scenarioOptions
    [{ data := ReqData.vec [1], anns_field := "vector", limit := 10 }] []
    { data := ReqData.txt "q", anns_field := "sparse_vector", limit := 10 }
    "connection refused" hok herr

/-! ## Claims C7 and C9 -/

/-- The accumulator produced by the scenario's request loop, in
first-insertion order. -/
def scenarioAccum : List HybridSearchResult :=
  [ { document := splitDocument "x" [1] "" [], score := 7/10 },
    { document := splitDocument "y" [1] "" [], score := 7/10 },
    { document := splitDocument "z" [] "" [], score := 4/5 } ]

/-- Evaluation of the scenario's request loop. -/
theorem scenarioAccum_eval :
    processRequests scenarioBackend scenarioOptions scenarioRequests []
      = Except.ok scenarioAccum := by
  norm_num [processRequests, hybridRequestResults,
    ChromaVectorDatabase.search, mergeResult, rowToResult, distanceToScore,
    scenarioBackend, scenarioRequests, scenarioOptions, scenarioAccum, docRow, jsOrNat,
    filterExprTruthy, ReqData.isArray, ReqData.isString, ReqData.asVec, splitDocument,
    metaGetStr, metaGetNum, metaLookup, residualMetadata,
    show ("y" : String) ≠ "x" from by decide, show ("z" : String) ≠ "x" from by decide,
    show ("z" : String) ≠ "y" from by decide, show ("x" : String) ≠ "y" from by decide,
    show ("x" : String) ≠ "z" from by decide, show ("y" : String) ≠ "z" from by decide]

/-- Evaluation of the scenario's fused output. -/
theorem scenarioFusion_eval :
    ChromaVectorDatabase.hybridSearch scenarioBackend scenarioRequests scenarioOptions
      = Except.ok scenarioExpected := by
  rw [(hybridSearch_ok_iff scenarioBackend scenarioRequests scenarioOptions
    scenarioExpected).mpr ⟨scenarioAccum, scenarioAccum_eval, ?_⟩]
  norm_num [scenarioAccum, scenarioExpected, scenarioOptions, jsOrNat,
    List.insertionSort, List.orderedInsert, scoreDesc]

/-- C7: the fused output of every successful hybrid search contains at
most one entry per distinct document id. -/
theorem fused_ids_nodup (be : Backend) (reqs : List HybridSearchRequest)
    (opts : Option HybridSearchOptions) (l : List HybridSearchResult)
    (h : ChromaVectorDatabase.hybridSearch be reqs opts = Except.ok l) :
    (l.map (fun x => x.document.id)).Nodup := by
  obtain ⟨acc, hacc, rfl⟩ := (hybridSearch_ok_iff be reqs opts l).mp h
  have hnd : (acc.map (fun x => x.document.id)).Nodup :=
    processRequests_nodup be opts reqs [] acc hacc (by simp)
  have hperm : List.Perm ((acc.insertionSort scoreDesc).map (fun x => x.document.id))
      (acc.map (fun x => x.document.id)) :=
    (List.perm_insertionSort scoreDesc acc).map _
  exact (hperm.nodup_iff.mpr hnd).sublist ((List.take_sublist _ _).map _)

/-- Witness for C7 at the scenario. -/
theorem fused_ids_nodup_witness :
    (scenarioExpected.map (fun x => x.document.id)).Nodup :=
  fused_ids_nodup scenarioBackend scenarioRequests scenarioOptions scenarioExpected
    scenarioFusion_eval

/-- Invariant: every accumulator entry's vector is empty (text path) or
the query vector of some dense-shaped request of the list `R`. -/
theorem processRequests_vector (be : Backend) (opts : Option HybridSearchOptions)
    (R : List HybridSearchRequest) :
    ∀ rs : List HybridSearchRequest, (∀ q ∈ rs, q ∈ R) →
    ∀ (acc out : List HybridSearchResult),
    processRequests be opts rs acc = Except.ok out →
    (∀ h ∈ acc, h.document.vector = [] ∨ ∃ req ∈ R, req.anns_field = "vector" ∧
      req.data.isArray = true ∧ h.document.vector = req.data.asVec) →
    ∀ h ∈ out, h.document.vector = [] ∨ ∃ req ∈ R, req.anns_field = "vector" ∧
      req.data.isArray = true ∧ h.document.vector = req.data.asVec := by
  intro rs
  induction rs with
  | nil =>
    intro _ acc out hp hinv
    cases hp
    exact hinv
  | cons q qs ih =>
    intro hsub acc out hp hinv
    unfold processRequests at hp
    cases hq : hybridRequestResults be opts q with
    | error e => rw [hq] at hp; cases hp
    | ok srs =>
      rw [hq] at hp
      refine ih (fun p hp2 => hsub p (List.mem_cons_of_mem q hp2)) _ out hp ?_
      intro h hm
      rcases foldl_mergeResult_docs srs acc h hm with ⟨h0, h0m, he⟩ | ⟨s, hs, he⟩
      · rw [he]
        exact hinv h0 h0m
      · rcases hybridRequestResults_char be opts q srs hq with
          ⟨ha, hb, rows, _, rfl⟩ | ⟨_, _, rows, _, rfl⟩ | rfl
        · obtain ⟨row, _, rfl⟩ := List.mem_map.mp hs
          right
          exact ⟨q, hsub q (List.mem_cons_self q qs), ha, hb, by rw [he]; rfl⟩
        · obtain ⟨row, _, rfl⟩ := List.mem_map.mp hs
          left
          rw [he]
          rfl
        · cases hs

/-- C9: a returned document never carries its stored vector: on the
dense search path the vector field equals the caller's query vector,
and every hybrid output entry carries either the empty vector (text
path) or the query vector of one of the call's dense-shaped requests. -/
theorem result_vector_provenance (be : Backend) (qv : List ℚ)
    (sopts : Option SearchOptions) (reqs : List HybridSearchRequest)
    (opts : Option HybridSearchOptions) (l : List VectorSearchResult)
    (L : List HybridSearchResult) (r : VectorSearchResult) (hsr : HybridSearchResult)
    (hs : ChromaVectorDatabase.search be qv sopts = Except.ok l)
    (hh : ChromaVectorDatabase.hybridSearch be reqs opts = Except.ok L)
    (hr : r ∈ l) (hmem : hsr ∈ L) :
    r.document.vector = qv ∧
    (hsr.document.vector = [] ∨ ∃ req ∈ reqs, req.anns_field = "vector" ∧
      req.data.isArray = true ∧ hsr.document.vector = req.data.asVec) := by
  constructor
  · obtain ⟨rows, _, rfl⟩ := (search_ok_iff be qv sopts l).mp hs
    obtain ⟨row, _, rfl⟩ := List.mem_map.mp hr
    rfl
  · obtain ⟨acc, hacc, hin⟩ := hybridSearch_mem hh hmem
    exact processRequests_vector be opts reqs reqs (fun q hq => hq) [] acc hacc
      (by simp) hsr hin

/-- Witness for C9: the dense result for `x` carries the query vector
`[1]`, and the scenario's top fused entry (`z`, from the text path)
carries the empty vector. -/
theorem result_vector_provenance_witness :
    (rowToResult [1] (docRow "x" (1/10))).document.vector = [1] ∧
    ((scenarioExpected.get ⟨0, by decide⟩).document.vector = [] ∨
      ∃ req ∈ scenarioRequests, req.anns_field = "vector" ∧
        req.data.isArray = true ∧
        (scenarioExpected.get ⟨0, by decide⟩).document.vector = req.data.asVec) := by
  have hs : ChromaVectorDatabase.search scenarioBackend [1] none
      = Except.ok [rowToResult [1] (docRow "x" (1/10)), rowToResult [1] (docRow "y" (3/10))] := by
    simp [ChromaVectorDatabase.search, scenarioBackend, jsOrNat]
  exact result_vector_provenance scenarioBackend [1] none scenarioRequests
    scenarioOptions _ scenarioExpected (rowToResult [1] (docRow "x" (1/10)))
    (scenarioExpected.get ⟨0, by decide⟩) hs scenarioFusion_eval (by simp)
    (by simp [scenarioExpected])

/-! ## Claim C4 -/

instance : IsTotal HybridSearchResult scoreDesc :=
  ⟨fun a b => le_total b.score a.score⟩

instance : IsTrans HybridSearchResult scoreDesc :=
  ⟨fun _ _ _ hab hbc => le_trans hbc hab⟩

/-- A pair that is a sublist of a duplicate-free list and lands inside
its prefix is a sublist of that prefix. -/
theorem pair_sublist_take {α : Type} {x y : α} :
    ∀ (l : List α) (k : Nat), l.Nodup → x ∈ l.take k → y ∈ l.take k →
    List.Sublist [x, y] l → List.Sublist [x, y] (l.take k) := by
  intro l
  induction l with
  | nil =>
    intro k _ hx _ _
    simp at hx
  | cons a t ih =>
    intro k hN hx hy hxy
    cases k with
    | zero => simp at hx
    | succ k =>
      rw [List.take_succ_cons] at hx hy ⊢
      cases hxy with
      | cons _ h' =>
        have hxt : x ∈ t := h'.subset (by simp)
        have hyt : y ∈ t := h'.subset (by simp)
        have hxa : x ≠ a := fun he => (List.nodup_cons.mp hN).1 (he ▸ hxt)
        have hya : y ≠ a := fun he => (List.nodup_cons.mp hN).1 (he ▸ hyt)
        have hx2 : x ∈ t.take k := by
          rcases List.mem_cons.mp hx with h | h
          · exact absurd h hxa
          · exact h
        have hy2 : y ∈ t.take k := by
          rcases List.mem_cons.mp hy with h | h
          · exact absurd h hya
          · exact h
        exact List.Sublist.cons a (ih k (List.nodup_cons.mp hN).2 hx2 hy2 h')
      | cons₂ _ h' =>
        have hyt : y ∈ t := h'.subset (by simp)
        have hya : y ≠ x := fun he => (List.nodup_cons.mp hN).1 (he ▸ hyt)
        have hy2 : y ∈ t.take k := by
          rcases List.mem_cons.mp hy with h | h
          · exact absurd h hya
          · exact h
        exact List.Sublist.cons₂ x (List.singleton_sublist.mpr hy2)

/-- C4: the fused output of every successful hybrid search is sorted by
descending score; and any two output entries with equal fused score
appear in the order in which their ids were first inserted into the
accumulator (stable tie-break by first encounter). -/
theorem fused_sorted_and_stable (be : Backend) (reqs : List HybridSearchRequest)
    (opts : Option HybridSearchOptions) (acc l : List HybridSearchResult)
    (x y : HybridSearchResult)
    (hacc : processRequests be opts reqs [] = Except.ok acc)
    (hl : ChromaVectorDatabase.hybridSearch be reqs opts = Except.ok l) :
    List.Sorted scoreDesc l ∧
    (x.score = y.score → List.Sublist [x, y] acc → x ∈ l → y ∈ l →
      List.Sublist [x, y] l) := by
  obtain ⟨acc2, hacc2, rfl⟩ := (hybridSearch_ok_iff be reqs opts l).mp hl
  rw [hacc] at hacc2
  cases hacc2
  constructor
  · exact List.Pairwise.sublist (List.take_sublist _ _)
      (List.sorted_insertionSort scoreDesc acc)
  · intro hsc hxy hx hy
    have hpair : List.Sublist [x, y] (acc.insertionSort scoreDesc) :=
      List.pair_sublist_insertionSort (le_of_eq hsc.symm) hxy
    have hnd : acc.Nodup :=
      (processRequests_nodup be opts reqs [] acc hacc (by simp)).of_map
    have hndS : (acc.insertionSort scoreDesc).Nodup :=
      ((List.perm_insertionSort scoreDesc acc).nodup_iff).mpr hnd
    exact pair_sublist_take _ _ hndS hx hy hpair

/-- Witness for C4 at the scenario: the fused output is sorted, `x` and
`y` both fuse to score `7/10`, `x` was inserted first, and `x` precedes
`y` in the sorted output. -/
theorem fused_sorted_and_stable_witness :
    List.Sorted scoreDesc scenarioExpected ∧
    List.Sublist
    [({ document := splitDocument "x" [1] "" [], score := 7/10 } : HybridSearchResult),
     { document := splitDocument "y" [1] "" [], score := 7/10 }]
      scenarioExpected :=
  ⟨(fused_sorted_and_stable scenarioBackend scenarioRequests scenarioOptions
      scenarioAccum scenarioExpected
      { document := splitDocument "x" [1] "" [], score := 7/10 }
      { document := splitDocument "y" [1] "" [], score := 7/10 }
      scenarioAccum_eval scenarioFusion_eval).1,
   (fused_sorted_and_stable scenarioBackend scenarioRequests scenarioOptions
      scenarioAccum scenarioExpected
      { document := splitDocument "x" [1] "" [], score := 7/10 }
      { document := splitDocument "y" [1] "" [], score := 7/10 }
      scenarioAccum_eval scenarioFusion_eval).2 rfl
    (List.Sublist.cons₂ _ (List.Sublist.cons₂ _ (List.nil_sublist _)))
    (List.mem_cons_of_mem _ (List.mem_cons_self _ _))
    (List.mem_cons_of_mem _ (List.mem_cons_of_mem _ (List.mem_cons_self _ _)))⟩
